import Mathlib

/-!
Verification of the federated-issue-action repository.

This file gives a shallow embedding of the repository's core logic:
  * repository discovery (src/repo-discovery.ts),
  * permission evaluation (src/permissions.ts and the older inline
    validatePermission of src/index.ts),
  * the child-issue operations (src/issue-operations.ts) and the
    orchestrator's fan-out handlers (src/index.ts).

External collaborators (the GitHub REST/GraphQL services) are modelled as
oracle functions gathered in environment structures; each embedded operation
returns both the list of external calls it performs (its visible trace) and
its result, with thrown JavaScript exceptions modelled as Except errors.
-/

/-! ### JavaScript string helpers

The source uses String.prototype.startsWith / includes / endsWith / split.
They are modelled on character lists so that every definition reduces in the
kernel.
-/

/-- Boolean list-prefix test (model of JavaScript startsWith on chars). -/
def charPre : List Char → List Char → Bool
  | [], _ => true
  | _ :: _, [] => false
  | a :: as, b :: bs => a = b && charPre as bs

/-- Does pat occur as a contiguous sublist of s (JavaScript includes)? -/
def charSub (pat : List Char) : List Char → Bool
  | [] => charPre pat []
  | c :: rest => charPre pat (c :: rest) || charSub pat rest

/-- Model of JavaScript s.startsWith(pat). -/
def jsStartsWith (s pat : String) : Bool := charPre pat.toList s.toList

/-- Model of JavaScript s.endsWith(pat). -/
def jsEndsWith (s pat : String) : Bool := charPre pat.toList.reverse s.toList.reverse

/-- Model of JavaScript s.includes(pat). -/
def jsIncludes (s pat : String) : Bool := charSub pat.toList s.toList

/-- Splitter for JavaScript s.split('/'): cut the character list at every
slash, accumulating the current segment in reverse. -/
def splitSlashAux : List Char → List Char → List (List Char)
  | [], acc => [acc.reverse]
  | c :: rest, acc =>
    if c = '/' then acc.reverse :: splitSlashAux rest []
    else splitSlashAux rest (c :: acc)

/-- Model of JavaScript s.split('/'). -/
def jsSplitSlash (s : String) : List String :=
  (splitSlashAux s.toList []).map String.mk

/-- Model of the JavaScript expression opt || dflt for an optionally absent
string: undefined and the empty string are falsy. -/
def jsOrElse : Option String → String → String
  | some s, dflt => if s = "" then dflt else s
  | none, dflt => dflt

/-! ### Data model (src/types.ts, src/config.ts) -/

/-- GitHub repository reference (interface Repository in src/types.ts).
nodeId is optional: explicit selectors build entries without it. -/
structure Repository where
  owner : String
  name : String
  nodeId : Option String := none
deriving Repr, DecidableEq

/-- An item of the listForOrg REST answer, as read by repo-discovery.ts
(fields name and node_id). -/
structure RepoInfo where
  name : String
  node_id : String
deriving Repr, DecidableEq

/-- The operator field of a name-pattern selector (zod enum with default
"contains"). none models an absent operator (the switch in
discoverByNamePattern then falls to its default branch). -/
inductive PatternOperator where
  | startsWith
  | contains
  | endsWith
deriving Repr, DecidableEq

/-- A target-repository selector (discriminated union on method in
src/config.ts). The unknown variant stands for any value whose method tag is
not one of the recognized ones; such values reach
getRepositoriesForSelector's default branch (the repository's own test suite
drives one in with a cast). -/
inductive Selector where
  | namePattern (operator : Option PatternOperator) (pattern : String)
  | explicit (repositories : Option (List String))
  | unknown (tag : String)
deriving Repr, DecidableEq

/-- The users/teams allow-list (configSchema.allowed; zod defaults both
arrays to [], and an absent allowed object parses to empty lists). -/
structure Allowed where
  users : List String
  teams : List String
deriving Repr, DecidableEq

/-- Parsed action configuration (type Config = z.infer of configSchema). -/
structure Config where
  allowed : Allowed
  targetRepositorySelectors : List Selector
deriving Repr, DecidableEq

/-! ### Repository discovery (src/repo-discovery.ts) -/

/-- Environment of the discovery step: the paginated
client.rest.repos.listForOrg call, keyed by the org argument. -/
structure DiscoveryEnv where
  listForOrg : String → List RepoInfo

/-- The operator switch inside discoverByNamePattern. An absent operator
hits the default branch, which also uses includes. -/
def matchesOperator : Option PatternOperator → String → String → Bool
  | some .startsWith, name, pat => jsStartsWith name pat
  | some .contains, name, pat => jsIncludes name pat
  | some .endsWith, name, pat => jsEndsWith name pat
  | none, name, pat => jsIncludes name pat

/-- discoverByNamePattern: list the organization's repositories once and
keep those whose name matches. The second component counts listForOrg
calls (always one here). -/
def discoverByNamePattern (env : DiscoveryEnv) (owner : String)
    (operator : Option PatternOperator) (pattern : String) :
    List Repository × Nat :=
  ((env.listForOrg owner).filterMap (fun repo =>
    if matchesOperator operator repo.name pattern then
      some { owner := owner, name := repo.name, nodeId := some repo.node_id }
    else none), 1)

/-- getExplicitRepositories: pair each configured name with the owner; no
nodeId is produced. -/
def getExplicitRepositories (owner : String) (repoNames : List String) :
    List Repository :=
  repoNames.map (fun name => { owner := owner, name := name, nodeId := none })

/-- getRepositoriesForSelector. The explicit branch reads
selector.repositories || [] (an absent field becomes the empty list). The
default branch throws; its message interpolates (selector as any).type,
a property that does not exist (the tag lives in .method), so the thrown
message always ends in "undefined". The Nat component counts listForOrg
calls. -/
def getRepositoriesForSelector (env : DiscoveryEnv) (owner : String) :
    Selector → Except String (List Repository) × Nat
  | .namePattern operator pattern =>
    ((Except.ok (discoverByNamePattern env owner operator pattern).1),
      (discoverByNamePattern env owner operator pattern).2)
  | .explicit repositories =>
    (.ok (getExplicitRepositories owner (repositories.getD [])), 0)
  | .unknown _ => (.error "Unsupported selector type: undefined", 0)

/-- One JavaScript Map.set step keyed by repository name: an existing key
keeps its position and gets the new value, a new key is appended. -/
def jsMapSet (m : List (String × Repository)) (r : Repository) :
    List (String × Repository) :=
  if r.name ∈ m.map Prod.fst then
    m.map (fun p => if p.1 = r.name then (r.name, r) else p)
  else m ++ [(r.name, r)]

/-- The loop body of discoverRepositories: resolve each selector in order,
folding its results into the name-keyed map; a thrown selector error
propagates out of the whole loop (awaited inside the for, no catch). -/
def discoverGo (env : DiscoveryEnv) (owner : String) :
    List Selector → List (String × Repository) → Nat →
    Except String (List Repository) × Nat
  | [], m, calls => (.ok (m.map Prod.snd), calls)
  | s :: rest, m, calls =>
    match getRepositoriesForSelector env owner s with
    | (.error e, c) => (.error e, calls + c)
    | (.ok repos, c) =>
      discoverGo env owner rest (repos.foldl jsMapSet m) (calls + c)

/-- discoverRepositories: process each selector of the configuration and
return the deduplicated map values (Array.from(repoMap.values())). The Nat
component is the total number of listForOrg calls performed. -/
def discoverRepositories (env : DiscoveryEnv) (config : Config)
    (owner : String) : Except String (List Repository) × Nat :=
  discoverGo env owner config.targetRepositorySelectors [] 0

/-- Decidable equality for Except results, used to evaluate the embedded
operations at concrete inputs. -/
instance {ε α : Type} [DecidableEq ε] [DecidableEq α] :
    DecidableEq (Except ε α) := fun x y =>
  match x, y with
  | .error e, .error f => decidable_of_iff (e = f) (by simp)
  | .error _, .ok _ => .isFalse (by simp)
  | .ok _, .error _ => .isFalse (by simp)
  | .ok a, .ok b => decidable_of_iff (a = b) (by simp)

/-! ### Permission evaluation (src/permissions.ts and the inline
validatePermission of src/index.ts)

The team-membership service is an oracle from a query to either a response
(the awaited REST answer) or a thrown error. Each evaluator returns the
decision together with the list of membership queries it issued, so that
"no lookup performed" and "remaining teams not evaluated" are visible. -/

/-- Arguments of client.rest.teams.getMembershipForUserInOrg. -/
structure TeamQuery where
  org : String
  team_slug : String
  username : String
deriving Repr, DecidableEq

/-- The part of the membership answer the code reads: response.status and
response.data.state. -/
structure MembershipResponse where
  status : Nat
  state : String
deriving Repr, DecidableEq

/-- A thrown membership-lookup error: its optional HTTP status (the
permissions module distinguishes 404 only to decide whether to warn) and
message. Both kinds make the loop continue. -/
structure LookupError where
  status : Option Nat
  message : String
deriving Repr, DecidableEq

/-- The org/slug split both evaluators perform: with a slash, org is
split('/')[0] and the slug split('/')[1]; otherwise org defaults to the
repository owner. -/
def teamQueryOf (owner username team : String) : TeamQuery :=
  if jsIncludes team "/" then
    { org := (jsSplitSlash team).headD ""
      team_slug := ((jsSplitSlash team).drop 1).headD ""
      username := username }
  else { org := owner, team_slug := team, username := username }

namespace Permissions

/-- The team loop of src/permissions.ts: a response with state "active"
returns true at once (remaining teams unqueried); any other state, a 404,
or any thrown error continues with the next team; an exhausted list yields
false. -/
def teamsCheck (lookup : TeamQuery → Except LookupError MembershipResponse)
    (owner username : String) : List String → Bool × List TeamQuery
  | [] => (false, [])
  | t :: rest =>
    match lookup (teamQueryOf owner username t) with
    | .ok resp =>
      if resp.state = "active" then (true, [teamQueryOf owner username t])
      else ((teamsCheck lookup owner username rest).1,
        teamQueryOf owner username t :: (teamsCheck lookup owner username rest).2)
    | .error _ =>
      ((teamsCheck lookup owner username rest).1,
        teamQueryOf owner username t :: (teamsCheck lookup owner username rest).2)

/-- validatePermission of src/permissions.ts. The guard
(!config.allowed || (!users?.length && !teams?.length)) reduces, for a
schema-parsed config (zod defaults allowed to an object with empty arrays),
to both lists being empty: the open policy. Then the explicit user list,
then the team loop. -/
def validatePermission (lookup : TeamQuery → Except LookupError MembershipResponse)
    (config : Config) (owner username : String) : Bool × List TeamQuery :=
  if config.allowed.users.isEmpty && config.allowed.teams.isEmpty then (true, [])
  else if config.allowed.users.contains username then (true, [])
  else teamsCheck lookup owner username config.allowed.teams

end Permissions

namespace Index

/-- The team loop of the inline validatePermission in src/index.ts: same
split, but membership counts only when response.status is 200 and
response.data.state is "active"; every thrown error is swallowed and the
loop continues. -/
def teamsCheck (lookup : TeamQuery → Except LookupError MembershipResponse)
    (owner username : String) : List String → Bool × List TeamQuery
  | [] => (false, [])
  | t :: rest =>
    match lookup (teamQueryOf owner username t) with
    | .ok resp =>
      if resp.status = 200 ∧ resp.state = "active" then
        (true, [teamQueryOf owner username t])
      else ((teamsCheck lookup owner username rest).1,
        teamQueryOf owner username t :: (teamsCheck lookup owner username rest).2)
    | .error _ =>
      ((teamsCheck lookup owner username rest).1,
        teamQueryOf owner username t :: (teamsCheck lookup owner username rest).2)

/-- The inline validatePermission of src/index.ts: the repository owner is
authorized first, before any list or team is consulted; then the explicit
user list; then the team loop; otherwise false. It has no open-policy
branch. -/
def validatePermission (lookup : TeamQuery → Except LookupError MembershipResponse)
    (config : Config) (owner username : String) : Bool × List TeamQuery :=
  if owner = username then (true, [])
  else if config.allowed.users.contains username then (true, [])
  else teamsCheck lookup owner username config.allowed.teams

end Index

/-- Does the lookup report team t as active for this user, under the
permissions-module reading (state "active"; thrown errors and 404s are
non-matches)? Used to state the loop's negative characterization. -/
def isActiveLookup (lookup : TeamQuery → Except LookupError MembershipResponse)
    (owner username t : String) : Bool :=
  match lookup (teamQueryOf owner username t) with
  | .ok resp => resp.state = "active"
  | .error _ => false

/-! ### JSON values and JavaScript property access

getChildIssues walks a GraphQL response dynamically
(response.repository.issue.trackedInIssues.nodes), so the response is
modelled as a JSON value. A missing object key reads as undefined (the
Option layer); reading a property of undefined or null throws. -/

/-- A JSON value. Numbers are naturals (the only numbers read are issue
numbers). -/
inductive Json where
  | null
  | str (s : String)
  | num (n : Nat)
  | arr (elems : List Json)
  | obj (fields : List (String × Json))

/-- First binding of a key in an object's field list (JavaScript object
literals keep one binding per key). -/
def lookupField : List (String × Json) → String → Option Json
  | [], _ => none
  | (k, v) :: rest, key => if k = key then some v else lookupField rest key

/-- Is the value an object? -/
def Json.isObj : Json → Bool
  | .obj _ => true
  | _ => false

/-- Does the object value carry this key? -/
def Json.hasKey : Json → String → Bool
  | .obj fields, key => (lookupField fields key).isSome
  | _, _ => false

/-- The TypeError message thrown when reading a property of undefined. -/
def undefinedReadMsg (key : String) : String :=
  "TypeError: Cannot read properties of undefined (reading '" ++ key ++ "')"

/-- The TypeError message thrown when reading a property of null. -/
def nullReadMsg (key : String) : String :=
  "TypeError: Cannot read properties of null (reading '" ++ key ++ "')"

/-- One JavaScript property access. none stands for undefined: reading a
property of undefined or null throws; an absent key on an object, or any
access on a non-object non-null value, yields undefined. -/
def jsAccess : Option Json → String → Except String (Option Json)
  | none, key => .error (undefinedReadMsg key)
  | some .null, key => .error (nullReadMsg key)
  | some (.obj fields), key => .ok (lookupField fields key)
  | some _, _ => .ok none

/-- A chain of property accesses, failing at the first throwing step. -/
def jsChain : Option Json → List String → Except String (Option Json)
  | v, [] => .ok v
  | v, key :: keys =>
    match jsAccess v key with
    | .error e => .error e
    | .ok v2 => jsChain v2 keys

/-- Coerce a possibly-undefined JSON value to the string the code stores
(GraphQL returns strings for these fields; other shapes coerce to ""). -/
def jsAsString : Option Json → String
  | some (.str s) => s
  | _ => ""

/-- Coerce a possibly-undefined JSON value to the natural the code stores. -/
def jsAsNat : Option Json → Nat
  | some (.num n) => n
  | _ => 0

/-- Coerce a possibly-undefined JSON value to the optional node id the code
stores (an absent id is undefined, hence none). -/
def jsAsOptStr : Option Json → Option String
  | some (.str s) => some s
  | _ => none

/-! ### Issue operations (src/issue-operations.ts) and orchestrator
handlers (src/index.ts)

Each operation returns the list of external calls it makes together with
its Except result. -/

/-- GitHub issue reference (interface IssueReference in src/types.ts). -/
structure IssueReference where
  owner : String
  repo : String
  number : Nat
  nodeId : Option String := none
deriving Repr, DecidableEq

/-- Issue details extracted from the event payload (interface IssueDetails
in src/types.ts has title/body/labels). The implementationDetails field is
read dynamically by createChildIssue and updateChildIssue although no call
site ever sets it, so it is carried as an Option that is none at every call
site built from the payload. -/
structure IssueDetails where
  title : String
  body : String
  labels : List String
  implementationDetails : Option String := none
deriving Repr, DecidableEq

/-- Arguments of client.rest.issues.create as sent by createChildIssue
(the labels line in the source is commented out, so no labels are sent). -/
structure CreateRequest where
  owner : String
  repo : String
  title : String
  body : String
deriving Repr, DecidableEq

/-- The part of the create answer the code reads: data.number and
data.node_id. -/
structure CreateResponse where
  number : Nat
  node_id : String
deriving Repr, DecidableEq

/-- Arguments of client.rest.issues.update: updateChildIssue sends
title/body, updateChildIssueStatus sends state. -/
structure UpdateRequest where
  owner : String
  repo : String
  issue_number : Nat
  title : Option String := none
  body : Option String := none
  state : Option String := none
deriving Repr, DecidableEq

/-- An external call or log line of the orchestrator, in order. -/
inductive Event where
  | createCall (req : CreateRequest)
  | nodeIdCall (owner repo : String) (number : Nat)
  | linkCall (parentId childId : String)
  | childLookup (parentId : String)
  | updateCall (req : UpdateRequest)
  | errorLog (msg : String)
  | warningLog (msg : String)
  | infoLog (msg : String)
deriving Repr, DecidableEq

/-- Environment of the issue operations: the REST create/update endpoints,
the GetIssueId query (modelled at its interface as the returned id), the
addSubIssue mutation, and the raw response of the SubIssues query. -/
structure IssueEnv where
  restCreate : CreateRequest → Except String CreateResponse
  issueNodeId : String → String → Nat → Except String String
  linkAsSub : String → String → Except String Unit
  graphqlSubIssues : String → Except String Json
  restUpdate : UpdateRequest → Except String Unit

/-- The create request createChildIssue sends: title is the literal
"This is a child issue" and body is parentIssue.implementationDetails with
the fallback 'See parent issue for details' — the parent's title and body
are not used. -/
def createRequestFor (parentIssue : IssueDetails) (targetRepo : Repository) :
    CreateRequest :=
  { owner := targetRepo.owner
    repo := targetRepo.name
    title := "This is a child issue"
    body := jsOrElse parentIssue.implementationDetails "See parent issue for details" }

/-- createChildIssue: one rest.issues.create call; on success the returned
reference pairs the target repository with the response's number and
node_id. -/
def createChildIssue (env : IssueEnv) (parentIssue : IssueDetails)
    (targetRepo : Repository) : List Event × Except String IssueReference :=
  match env.restCreate (createRequestFor parentIssue targetRepo) with
  | .error e => ([.createCall (createRequestFor parentIssue targetRepo)], .error e)
  | .ok resp =>
    ([.createCall (createRequestFor parentIssue targetRepo)],
      .ok { owner := targetRepo.owner, repo := targetRepo.name,
            number := resp.number, nodeId := some resp.node_id })

/-- getIssueNodeId: one GetIssueId GraphQL query. -/
def getIssueNodeId (env : IssueEnv) (owner repo : String) (issueNumber : Nat) :
    List Event × Except String String :=
  ([.nodeIdCall owner repo issueNumber], env.issueNodeId owner repo issueNumber)

/-- linkIssueAsSubItem: the two id validations throw before any network
call; otherwise one addSubIssue mutation. -/
def linkIssueAsSubItem (env : IssueEnv) (parentNodeId childNodeId : String) :
    List Event × Except String Unit :=
  if parentNodeId = "" then
    ([], .error ("Invalid parent issue ID: " ++ parentNodeId))
  else if childNodeId = "" then
    ([], .error ("Invalid child issue ID: " ++ childNodeId))
  else ([.linkCall parentNodeId childNodeId], env.linkAsSub parentNodeId childNodeId)

/-- One element of the sub-issue node list, as pushed by getChildIssues:
node.repository.owner.login, node.repository.name, node.number, node.id. -/
def nodeToRef (node : Json) : Except String IssueReference :=
  match jsChain (some node) ["repository", "owner", "login"] with
  | .error e => .error e
  | .ok login =>
    match jsChain (some node) ["repository", "name"] with
    | .error e => .error e
    | .ok name =>
      match jsAccess (some node) "number" with
      | .error e => .error e
      | .ok number =>
        match jsAccess (some node) "id" with
        | .error e => .error e
        | .ok id =>
          .ok { owner := jsAsString login, repo := jsAsString name,
                number := jsAsNat number, nodeId := jsAsOptStr id }

/-- The response walk of getChildIssues: it reads
response.repository.issue.trackedInIssues.nodes — the field path of the old
GetSubItems query — although the query it now sends nests the nodes under
node.subIssues, and then iterates the nodes. Iterating a non-array (or
undefined) throws. -/
def getChildIssuesParse (resp : Json) : Except String (List IssueReference) :=
  match jsChain (some resp) ["repository", "issue", "trackedInIssues", "nodes"] with
  | .error e => .error e
  | .ok (some (.arr nodes)) => nodes.mapM nodeToRef
  | .ok (some _) => .error "TypeError: value is not iterable"
  | .ok none => .error "TypeError: undefined is not iterable"

/-- getChildIssues: the id validation throws first; then one SubIssues
GraphQL query whose response is walked by getChildIssuesParse. -/
def getChildIssues (env : IssueEnv) (parentNodeId : String) :
    List Event × Except String (List IssueReference) :=
  if parentNodeId = "" then
    ([], .error ("Invalid parent issue ID: " ++ parentNodeId))
  else
    ([.childLookup parentNodeId],
      match env.graphqlSubIssues parentNodeId with
      | .error e => .error e
      | .ok resp => getChildIssuesParse resp)

/-- updateChildIssue: one rest.issues.update call; like createChildIssue it
sends the hardcoded title and the implementationDetails fallback body. -/
def updateChildIssue (env : IssueEnv) (childIssue : IssueReference)
    (parentIssue : IssueDetails) : List Event × Except String Unit :=
  ([.updateCall
      { owner := childIssue.owner, repo := childIssue.repo,
        issue_number := childIssue.number,
        title := some "This is a child issue",
        body := some (jsOrElse parentIssue.implementationDetails
          "See parent issue for details") }],
    env.restUpdate
      { owner := childIssue.owner, repo := childIssue.repo,
        issue_number := childIssue.number,
        title := some "This is a child issue",
        body := some (jsOrElse parentIssue.implementationDetails
          "See parent issue for details") })

/-- The update request updateChildIssueStatus sends: only the state. -/
def statusRequestFor (childIssue : IssueReference) (isOpen : Bool) :
    UpdateRequest :=
  { owner := childIssue.owner, repo := childIssue.repo,
    issue_number := childIssue.number,
    state := some (if isOpen then "open" else "closed") }

/-- updateChildIssueStatus: one rest.issues.update call carrying the state. -/
def updateChildIssueStatus (env : IssueEnv) (childIssue : IssueReference)
    (isOpen : Bool) : List Event × Except String Unit :=
  ([.updateCall (statusRequestFor childIssue isOpen)],
    env.restUpdate (statusRequestFor childIssue isOpen))

/-- The per-repository catch message of handleIssueOpened. -/
def createFailMsg (repoName msg : String) : String :=
  "Failed to create child issue in " ++ repoName ++ ": " ++ msg

/-- The childNodeId step of handleIssueOpened:
childIssue.nodeId || await getIssueNodeId(...). A present non-empty node id
is used as is; an absent or empty one (both falsy) falls back to a
GetIssueId query. -/
def childNodeIdOf (env : IssueEnv) (c : IssueReference) :
    List Event × Except String String :=
  match c.nodeId with
  | some s => if s = "" then getIssueNodeId env c.owner c.repo c.number else ([], .ok s)
  | none => getIssueNodeId env c.owner c.repo c.number

/-- One iteration of the handleIssueOpened loop: create, resolve the child
node id, link. The whole body sits in a try whose catch logs an error for
the repository, so every thrown step ends in an errorLog instead of
propagating. -/
def processChildRepo (env : IssueEnv) (parentIssueNodeId : String)
    (issueDetails : IssueDetails) (repo : Repository) : List Event :=
  match createChildIssue env issueDetails repo with
  | (ev1, .error e) => ev1 ++ [.errorLog (createFailMsg repo.name e)]
  | (ev1, .ok childIssue) =>
    match childNodeIdOf env childIssue with
    | (ev2, .error e) => ev1 ++ ev2 ++ [.errorLog (createFailMsg repo.name e)]
    | (ev2, .ok childNodeId) =>
      match linkIssueAsSubItem env parentIssueNodeId childNodeId with
      | (ev3, .error e) => ev1 ++ ev2 ++ ev3 ++ [.errorLog (createFailMsg repo.name e)]
      | (ev3, .ok _) => ev1 ++ ev2 ++ ev3 ++
          [.infoLog ("Created and linked child issue " ++ repo.name ++ "#" ++
            toString childIssue.number)]

/-- handleIssueOpened: the for loop over the resolved child repositories;
each iteration's failures are confined to that iteration by its try/catch. -/
def handleIssueOpened (env : IssueEnv) (parentIssueNodeId : String)
    (issueDetails : IssueDetails) : List Repository → List Event
  | [] => []
  | repo :: rest =>
    processChildRepo env parentIssueNodeId issueDetails repo ++
      handleIssueOpened env parentIssueNodeId issueDetails rest

/-- One iteration of the handleIssueEdited loop, with its try/catch. -/
def updateOneChild (env : IssueEnv) (issueDetails : IssueDetails)
    (childIssue : IssueReference) : List Event :=
  match updateChildIssue env childIssue issueDetails with
  | (ev, .error e) => ev ++
      [.warningLog ("Failed to update child issue " ++ childIssue.repo ++ "#" ++
        toString childIssue.number ++ ": " ++ e)]
  | (ev, .ok _) => ev ++
      [.infoLog ("Updated child issue " ++ childIssue.repo ++ "#" ++
        toString childIssue.number)]

/-- handleIssueEdited: fetch the linked children, then update each one,
failures isolated per child. getChildIssues is awaited outside any try, so
its thrown error aborts the handler (the Option String component). -/
def handleIssueEdited (env : IssueEnv) (parentIssueNodeId : String)
    (issueDetails : IssueDetails) : List Event × Option String :=
  match getChildIssues env parentIssueNodeId with
  | (ev, .error e) => (ev, some e)
  | (ev, .ok childIssues) =>
    (ev ++ childIssues.flatMap (updateOneChild env issueDetails), none)

/-- One iteration of the handleIssueStatusChanged loop: set the child to
closed (isOpen false), with its try/catch. -/
def closeOneChild (env : IssueEnv) (childIssue : IssueReference) : List Event :=
  match updateChildIssueStatus env childIssue false with
  | (ev, .error e) => ev ++
      [.warningLog ("Failed to update status of child issue " ++ childIssue.repo ++
        "#" ++ toString childIssue.number ++ ": " ++ e)]
  | (ev, .ok _) => ev ++
      [.infoLog ("Updated status of child issue " ++ childIssue.repo ++ "#" ++
        toString childIssue.number)]

/-- handleIssueStatusChanged: fetch the linked children, then close each
one, failures isolated per child; a thrown getChildIssues aborts the
handler. -/
def handleIssueStatusChanged (env : IssueEnv) (parentIssueNodeId : String) :
    List Event × Option String :=
  match getChildIssues env parentIssueNodeId with
  | (ev, .error e) => (ev, some e)
  | (ev, .ok childIssues) => (ev ++ childIssues.flatMap (closeOneChild env), none)

/-- The closed branch of run()'s switch: handleIssueStatusChanged runs only
when close-issues-on-parent-close is enabled; otherwise the branch is a
debug log and nothing else. -/
def runClosedAction (env : IssueEnv) (closeIssuesOnParentClose : Bool)
    (parentIssueNodeId : String) : List Event × Option String :=
  if closeIssuesOnParentClose then handleIssueStatusChanged env parentIssueNodeId
  else ([], none)

/-- The repositories one selector resolves to (its partial result set);
an erroring selector contributes nothing. Used to state the
deduplication property of discoverRepositories. -/
def selectorRepos (env : DiscoveryEnv) (owner : String) (s : Selector) :
    List Repository :=
  match (getRepositoriesForSelector env owner s).1 with
  | .ok l => l
  | .error _ => []

/-! ### Concrete fixtures for evaluating the embedding -/

/-- A one-repository organization, for concrete evaluation. -/
def sampleDiscoveryEnv : DiscoveryEnv :=
  ⟨fun _ => [{ name := "ab", node_id := "n1" }]⟩

/-- An explicit selector naming the repository "ab". -/
def explicitAbSelector : Selector := .explicit (some ["ab"])

/-- A name-pattern selector matching the repository "ab". -/
def containsASelector : Selector := .namePattern (some .contains) "a"

/-- Overlapping selectors, explicit one first. -/
def explicitThenPatternCfg : Config :=
  ⟨⟨[], []⟩, [explicitAbSelector, containsASelector]⟩

/-- The same overlapping selectors, pattern one first. -/
def patternThenExplicitCfg : Config :=
  ⟨⟨[], []⟩, [containsASelector, explicitAbSelector]⟩

/-- A selector list whose second entry carries an unrecognized tag. -/
def unknownSelectorCfg : Config :=
  ⟨⟨[], []⟩, [explicitAbSelector, Selector.unknown "bogus"]⟩

/-- A selector list made only of explicit selectors (one with the
repositories field absent). -/
def allExplicitCfg : Config :=
  ⟨⟨[], []⟩, [Selector.explicit (some ["x", "y"]), Selector.explicit none]⟩

/-- A membership oracle that throws for team slug "t1" and reports an
active membership for every other team. -/
def sampleLookup : TeamQuery → Except LookupError MembershipResponse := fun q =>
  if q.team_slug = "t1" then .error ⟨none, "API Error"⟩ else .ok ⟨200, "active"⟩

/-- Parent issue details as extracted from a concrete payload. -/
def sampleDetails : IssueDetails :=
  { title := "Custom Title", body := "Custom Body", labels := ["federated"] }

/-- First resolved target repository. -/
def repoOne : Repository := { owner := "org", name := "r1" }

/-- Second resolved target repository. -/
def repoTwo : Repository := { owner := "org", name := "r2" }

/-- An issue service where creating in "r1" throws and creating anywhere
else succeeds with number 7 and node id "cid2". -/
def failFirstEnv : IssueEnv :=
  { restCreate := fun req =>
      if req.repo = "r1" then .error "boom" else .ok ⟨7, "cid2"⟩
    issueNodeId := fun _ _ _ => .ok "nid"
    linkAsSub := fun _ _ => .ok ()
    graphqlSubIssues := fun _ => .ok .null
    restUpdate := fun _ => .ok () }

/-- A GraphQL response with the shape of the SubIssues query getChildIssues
sends: the sub-issue nodes sit under node.subIssues.nodes and there is no
top-level repository field. -/
def queryShapedResp : Json :=
  .obj [("node", .obj [("subIssues", .obj [("nodes", .arr [])])])]

/-- An issue service whose SubIssues query answers with the query-shaped
response. -/
def queryShapedEnv : IssueEnv :=
  { failFirstEnv with graphqlSubIssues := fun _ => .ok queryShapedResp }

/-- A sub-issue node as it appears in the nodes array. -/
def subIssueNode (o r : String) (n : Nat) (i : String) : Json :=
  .obj [("repository", .obj [("name", .str r), ("owner", .obj [("login", .str o)])]),
        ("number", .num n), ("id", .str i)]

/-- A response with the legacy GetSubItems shape that the read path of
getChildIssues expects (repository.issue.trackedInIssues.nodes), carrying
two linked children. -/
def legacyShapedResp : Json :=
  .obj [("repository", .obj [("issue", .obj [("trackedInIssues",
    .obj [("nodes", .arr [subIssueNode "o1" "c1" 10 "n1",
                          subIssueNode "o2" "c2" 20 "n2"])])])])]

/-- An issue service whose SubIssues query answers with the legacy-shaped
response. -/
def legacyShapedEnv : IssueEnv :=
  { failFirstEnv with graphqlSubIssues := fun _ => .ok legacyShapedResp }

/-- The two children carried by legacyShapedResp, as parsed. -/
def legacyKids : List IssueReference :=
  [{ owner := "o1", repo := "c1", number := 10, nodeId := some "n1" },
   { owner := "o2", repo := "c2", number := 20, nodeId := some "n2" }]

/-! ### Lemmas about the discovery map -/

/-- Every binding the name-keyed map ever holds keys a repository by its
own name. -/
theorem jsMapSet_pair_name {m : List (String × Repository)} {r : Repository}
    (h : ∀ p ∈ m, p.1 = p.2.name) : ∀ p ∈ jsMapSet m r, p.1 = p.2.name := by
  intro p hp
  unfold jsMapSet at hp
  by_cases hc : r.name ∈ m.map Prod.fst
  · rw [if_pos hc] at hp
    obtain ⟨q, hq, hpq⟩ := List.mem_map.mp hp
    by_cases hq1 : q.1 = r.name
    · rw [if_pos hq1] at hpq; subst hpq; rfl
    · rw [if_neg hq1] at hpq; subst hpq; exact h q hq
  · rw [if_neg hc] at hp
    rcases List.mem_append.mp hp with h1 | h2
    · exact h p h1
    · simp only [List.mem_singleton] at h2; subst h2; rfl

/-- Updating an existing key leaves the key list unchanged. -/
theorem jsMapSet_keys_mem {m : List (String × Repository)} {r : Repository}
    (h : r.name ∈ m.map Prod.fst) :
    (jsMapSet m r).map Prod.fst = m.map Prod.fst := by
  unfold jsMapSet
  rw [if_pos h, List.map_map]
  apply List.map_congr_left
  intro p _
  by_cases hp : p.1 = r.name
  · simp [hp]
  · simp [hp]

/-- Inserting a new key appends it to the key list. -/
theorem jsMapSet_keys_not_mem {m : List (String × Repository)} {r : Repository}
    (h : r.name ∉ m.map Prod.fst) :
    (jsMapSet m r).map Prod.fst = m.map Prod.fst ++ [r.name] := by
  unfold jsMapSet
  rw [if_neg h]
  simp

/-- The key list stays duplicate-free across one map update. -/
theorem jsMapSet_keys_nodup {m : List (String × Repository)} {r : Repository}
    (h : (m.map Prod.fst).Nodup) : ((jsMapSet m r).map Prod.fst).Nodup := by
  by_cases hc : r.name ∈ m.map Prod.fst
  · rw [jsMapSet_keys_mem hc]; exact h
  · rw [jsMapSet_keys_not_mem hc]
    simp [List.nodup_append, h, hc]

/-- One map update inserts exactly the new repository's name into the key
set. -/
theorem jsMapSet_keys_toFinset (m : List (String × Repository)) (r : Repository) :
    ((jsMapSet m r).map Prod.fst).toFinset = insert r.name (m.map Prod.fst).toFinset := by
  by_cases hc : r.name ∈ m.map Prod.fst
  · rw [jsMapSet_keys_mem hc]
    exact (Finset.insert_eq_self.mpr (List.mem_toFinset.mpr hc)).symm
  · rw [jsMapSet_keys_not_mem hc]
    rw [List.toFinset_append]
    simp [Finset.insert_eq, Finset.union_comm]

/-- Folding repositories into the map preserves the name-keying invariant. -/
theorem foldl_jsMapSet_pair_name :
    ∀ (rs : List Repository) (m : List (String × Repository)),
      (∀ p ∈ m, p.1 = p.2.name) → ∀ p ∈ rs.foldl jsMapSet m, p.1 = p.2.name := by
  intro rs
  induction rs with
  | nil => intro m h; exact h
  | cons r rest ih =>
    intro m h
    exact ih (jsMapSet m r) (jsMapSet_pair_name h)

/-- Folding repositories into the map keeps the key list duplicate-free. -/
theorem foldl_jsMapSet_keys_nodup :
    ∀ (rs : List Repository) (m : List (String × Repository)),
      (m.map Prod.fst).Nodup → (((rs.foldl jsMapSet m)).map Prod.fst).Nodup := by
  intro rs
  induction rs with
  | nil => intro m h; exact h
  | cons r rest ih =>
    intro m h
    exact ih (jsMapSet m r) (jsMapSet_keys_nodup h)

/-- After folding, the key set is the old key set plus every folded name. -/
theorem foldl_jsMapSet_keys_toFinset :
    ∀ (rs : List Repository) (m : List (String × Repository)),
      ((rs.foldl jsMapSet m).map Prod.fst).toFinset =
        (m.map Prod.fst).toFinset ∪ (rs.map Repository.name).toFinset := by
  intro rs
  induction rs with
  | nil => intro m; simp
  | cons r rest ih =>
    intro m
    rw [List.foldl_cons, ih (jsMapSet m r), jsMapSet_keys_toFinset]
    rw [List.map_cons, List.toFinset_cons]
    rw [Finset.insert_union, Finset.union_insert]

/-- A successful discovery run folds every selector's partial result set,
in order, into the name-keyed map and returns its values. -/
theorem discoverGo_ok (env : DiscoveryEnv) (owner : String) :
    ∀ (selectors : List Selector) (m : List (String × Repository))
      (calls : Nat) (res : List Repository),
      (discoverGo env owner selectors m calls).1 = .ok res →
      res = ((selectors.flatMap (selectorRepos env owner)).foldl jsMapSet m).map
        Prod.snd := by
  intro selectors
  induction selectors with
  | nil =>
    intro m calls res h
    simp only [discoverGo] at h
    cases h
    simp
  | cons s rest ih =>
    intro m calls res h
    rw [List.flatMap_cons, List.foldl_append]
    cases hs : getRepositoriesForSelector env owner s with
    | mk fst c =>
      cases fst with
      | error e =>
        rw [discoverGo] at h
        rw [hs] at h
        simp at h
      | ok repos =>
        rw [discoverGo] at h
        rw [hs] at h
        have hrep : selectorRepos env owner s = repos := by
          unfold selectorRepos
          rw [hs]
        rw [hrep]
        exact ih (repos.foldl jsMapSet m) (calls + c) res h

/-- C7 (counterexample): two selectors whose match sets overlap on the name
"ab" produce colliding entries that are not structurally identical — the
explicit selector's entry has no nodeId while the name-pattern selector's
entry carries one — so last-write-wins does change the result: swapping the
two selectors changes the surviving entry. -/
theorem discoverRepositories_order_sensitive :
    (discoverRepositories sampleDiscoveryEnv explicitThenPatternCfg "o").1 =
      .ok [{ owner := "o", name := "ab", nodeId := some "n1" }] ∧
    (discoverRepositories sampleDiscoveryEnv patternThenExplicitCfg "o").1 =
      .ok [{ owner := "o", name := "ab", nodeId := none }] ∧
    (discoverRepositories sampleDiscoveryEnv explicitThenPatternCfg "o").1 ≠
      (discoverRepositories sampleDiscoveryEnv patternThenExplicitCfg "o").1 := by
  refine ⟨by decide, by decide, by decide⟩

/-- C7 (amended): whenever discoverRepositories succeeds, its result is
deduplicated by repository name — the returned names are pairwise distinct
and the result's length equals the number of distinct names across all
per-selector result sets. -/
theorem discoverRepositories_dedup_by_name (env : DiscoveryEnv) (cfg : Config)
    (owner : String) (res : List Repository)
    (hok : (discoverRepositories env cfg owner).1 = .ok res) :
    (res.map Repository.name).Nodup ∧
    res.length =
      ((cfg.targetRepositorySelectors.flatMap (selectorRepos env owner)).map
        Repository.name).dedup.length := by
  have hres :
      res = ((cfg.targetRepositorySelectors.flatMap (selectorRepos env owner)).foldl
        jsMapSet []).map Prod.snd :=
    discoverGo_ok env owner cfg.targetRepositorySelectors [] 0 res hok
  have hinv :
      ∀ p ∈ (cfg.targetRepositorySelectors.flatMap (selectorRepos env owner)).foldl
        jsMapSet [], p.1 = p.2.name :=
    foldl_jsMapSet_pair_name _ [] (by simp)
  have hnodup :
      (((cfg.targetRepositorySelectors.flatMap (selectorRepos env owner)).foldl
        jsMapSet []).map Prod.fst).Nodup :=
    foldl_jsMapSet_keys_nodup _ [] (by simp)
  have hnames :
      res.map Repository.name =
        ((cfg.targetRepositorySelectors.flatMap (selectorRepos env owner)).foldl
          jsMapSet []).map Prod.fst := by
    rw [hres, List.map_map]
    exact List.map_congr_left fun p hp => (hinv p hp).symm
  have htf :
      (((cfg.targetRepositorySelectors.flatMap (selectorRepos env owner)).foldl
        jsMapSet []).map Prod.fst).toFinset =
      ((cfg.targetRepositorySelectors.flatMap (selectorRepos env owner)).map
        Repository.name).toFinset := by
    rw [foldl_jsMapSet_keys_toFinset]
    simp
  constructor
  · rw [hnames]; exact hnodup
  · have hlen : res.length = (res.map Repository.name).length := by simp
    rw [hlen, hnames]
    rw [← List.Nodup.dedup hnodup, ← List.card_toFinset, htf, List.card_toFinset]

/-- C7 (witness for the amended theorem): the overlapping selectors of the
counterexample still deduplicate by name — one entry for the one distinct
name. -/
theorem discoverRepositories_dedup_by_name_witness :
    (([{ owner := "o", name := "ab", nodeId := some "n1" }] : List Repository).map
      Repository.name).Nodup ∧
    ([{ owner := "o", name := "ab", nodeId := some "n1" }] : List Repository).length =
      ((explicitThenPatternCfg.targetRepositorySelectors.flatMap
        (selectorRepos sampleDiscoveryEnv "o")).map Repository.name).dedup.length :=
  discoverRepositories_dedup_by_name sampleDiscoveryEnv explicitThenPatternCfg "o"
    [{ owner := "o", name := "ab", nodeId := some "n1" }] (by decide)

/-- A selector list containing an unrecognized tag makes the discovery loop
throw its configuration error, whatever prefix of the list resolved first. -/
theorem discoverGo_unknown (env : DiscoveryEnv) (owner : String) :
    ∀ (selectors : List Selector) (m : List (String × Repository)) (calls : Nat),
      (∃ tag, Selector.unknown tag ∈ selectors) →
      (discoverGo env owner selectors m calls).1 =
        .error "Unsupported selector type: undefined" := by
  intro selectors
  induction selectors with
  | nil =>
    intro m calls h
    obtain ⟨tag, htag⟩ := h
    simp at htag
  | cons s rest ih =>
    intro m calls h
    obtain ⟨tag, htag⟩ := h
    cases s with
    | unknown t => rw [discoverGo]; rfl
    | namePattern operator pattern =>
      have hrest : Selector.unknown tag ∈ rest := by
        rcases List.mem_cons.mp htag with h1 | h2
        · cases h1
        · exact h2
      rw [discoverGo]
      exact ih _ _ ⟨tag, hrest⟩
    | explicit repositories =>
      have hrest : Selector.unknown tag ∈ rest := by
        rcases List.mem_cons.mp htag with h1 | h2
        · cases h1
        · exact h2
      rw [discoverGo]
      exact ih _ _ ⟨tag, hrest⟩

/-- C6: a selector list containing a selector with an unrecognized tag
makes the whole resolution fail with the configuration error thrown by
getRepositoriesForSelector's default branch; the result is the error, never
a partial repository list. -/
theorem discoverRepositories_unsupported_selector (env : DiscoveryEnv)
    (cfg : Config) (owner tag : String)
    (h : Selector.unknown tag ∈ cfg.targetRepositorySelectors) :
    (discoverRepositories env cfg owner).1 =
      .error "Unsupported selector type: undefined" ∧
    ∀ res : List Repository, (discoverRepositories env cfg owner).1 ≠ .ok res := by
  have herr := discoverGo_unknown env owner cfg.targetRepositorySelectors [] 0 ⟨tag, h⟩
  refine ⟨herr, ?_⟩
  intro res hres
  unfold discoverRepositories at hres
  rw [herr] at hres
  cases hres

/-- C6 (witness): a concrete selector list whose second selector has the
unrecognized tag "bogus" resolves to the configuration error. -/
theorem discoverRepositories_unsupported_selector_witness :
    (discoverRepositories sampleDiscoveryEnv unknownSelectorCfg "o").1 =
      .error "Unsupported selector type: undefined" :=
  (discoverRepositories_unsupported_selector sampleDiscoveryEnv unknownSelectorCfg
    "o" "bogus" (by decide)).1

/-- An all-explicit selector list adds no listForOrg calls to the loop's
running count. -/
theorem discoverGo_calls_explicit (env : DiscoveryEnv) (owner : String) :
    ∀ (selectors : List Selector) (m : List (String × Repository)) (calls : Nat),
      (∀ s ∈ selectors, ∃ r, s = Selector.explicit r) →
      (discoverGo env owner selectors m calls).2 = calls := by
  intro selectors
  induction selectors with
  | nil => intro m calls _; rfl
  | cons s rest ih =>
    intro m calls h
    obtain ⟨r, hr⟩ := h s (List.mem_cons_self s rest)
    subst hr
    rw [discoverGo]
    simp only [getRepositoriesForSelector]
    rw [ih _ (calls + 0) fun s hs => h s (List.mem_cons_of_mem _ hs)]
    exact Nat.add_zero calls

/-- C8: explicit selectors never call the repository lister — an absent
repositories field resolves to the empty set, a present list resolves to
exactly those names paired with the candidate owner, both with zero
listForOrg calls; and a discovery run over only explicit selectors performs
zero listForOrg calls in total. -/
theorem explicitSelector_zero_listAll (env : DiscoveryEnv) (owner : String) :
    (getRepositoriesForSelector env owner (.explicit none) = (.ok [], 0)) ∧
    (∀ names : List String,
      getRepositoriesForSelector env owner (.explicit (some names)) =
        (.ok (names.map fun n => { owner := owner, name := n, nodeId := none }), 0)) ∧
    (∀ cfg : Config,
      (∀ s ∈ cfg.targetRepositorySelectors, ∃ r, s = Selector.explicit r) →
      (discoverRepositories env cfg owner).2 = 0) := by
  refine ⟨rfl, fun names => rfl, fun cfg h => ?_⟩
  exact discoverGo_calls_explicit env owner cfg.targetRepositorySelectors [] 0 h

/-- C8 (witness): a concrete all-explicit configuration — one selector with
names, one with the field absent — resolves with zero listForOrg calls, and
each explicit selector resolves to its names without a listing. -/
theorem explicitSelector_zero_listAll_witness :
    getRepositoriesForSelector sampleDiscoveryEnv "o" (.explicit none) = (.ok [], 0) ∧
    getRepositoriesForSelector sampleDiscoveryEnv "o" (.explicit (some ["x", "y"])) =
      (.ok [{ owner := "o", name := "x", nodeId := none },
            { owner := "o", name := "y", nodeId := none }], 0) ∧
    (discoverRepositories sampleDiscoveryEnv allExplicitCfg "o").2 = 0 := by
  refine ⟨(explicitSelector_zero_listAll sampleDiscoveryEnv "o").1,
    (explicitSelector_zero_listAll sampleDiscoveryEnv "o").2.1 ["x", "y"],
    (explicitSelector_zero_listAll sampleDiscoveryEnv "o").2.2 allExplicitCfg ?_⟩
  intro s hs
  simp only [allExplicitCfg, List.mem_cons, List.mem_singleton] at hs
  rcases hs with h | h | h
  · exact ⟨some ["x", "y"], h⟩
  · exact ⟨none, h⟩
  · cases h

/-! ### Permission evaluation theorems -/

/-- C3: under a policy whose allow-list is empty — both users and teams
empty, which is also what an absent allowed object parses to under the zod
defaults — validatePermission of the permissions module returns true for
every actor, and its query trace is empty: no team-membership lookup is
performed. -/
theorem validatePermission_open_policy :
    ∀ (lookup : TeamQuery → Except LookupError MembershipResponse)
      (selectors : List Selector) (owner username : String),
      Permissions.validatePermission lookup ⟨⟨[], []⟩, selectors⟩ owner username =
        (true, []) :=
  fun _ _ _ _ => rfl

/-- When no listed team resolves to an active membership — not found,
non-active states and thrown lookups alike — the team loop returns false
after querying every team in order. -/
theorem teamsCheck_all_inactive
    (lookup : TeamQuery → Except LookupError MembershipResponse)
    (owner username : String) :
    ∀ teams : List String,
      (∀ t ∈ teams, isActiveLookup lookup owner username t = false) →
      Permissions.teamsCheck lookup owner username teams =
        (false, teams.map (teamQueryOf owner username)) := by
  intro teams
  induction teams with
  | nil => intro _; rfl
  | cons t rest ih =>
    intro h
    have ht := h t (List.mem_cons_self t rest)
    have hrest := ih fun s hs => h s (List.mem_cons_of_mem _ hs)
    rw [Permissions.teamsCheck]
    cases hl : lookup (teamQueryOf owner username t) with
    | error e => simp [hrest]
    | ok resp =>
      have hstate : ¬ resp.state = "active" := by
        unfold isActiveLookup at ht
        rw [hl] at ht
        simpa using ht
      simp [if_neg hstate, hrest]

/-- C5: the team loop of validatePermission, in declaration order — an
active response returns true at once with no further team queried; a
non-active response or a thrown lookup continues with the next team; the
empty tail yields false; a broken lookup for team 1 followed by an active
result for team 2 yields true having queried both; and when the actor is
not otherwise allowed (allow-list non-empty, actor not a listed user) and
no team resolves to active, validatePermission returns false. -/
theorem validatePermission_team_loop
    (lookup : TeamQuery → Except LookupError MembershipResponse)
    (owner username : String) :
    (Permissions.teamsCheck lookup owner username [] = (false, [])) ∧
    (∀ t rest resp, lookup (teamQueryOf owner username t) = .ok resp →
      resp.state = "active" →
      Permissions.teamsCheck lookup owner username (t :: rest) =
        (true, [teamQueryOf owner username t])) ∧
    (∀ t rest resp, lookup (teamQueryOf owner username t) = .ok resp →
      resp.state ≠ "active" →
      Permissions.teamsCheck lookup owner username (t :: rest) =
        ((Permissions.teamsCheck lookup owner username rest).1,
          teamQueryOf owner username t ::
            (Permissions.teamsCheck lookup owner username rest).2)) ∧
    (∀ t rest e, lookup (teamQueryOf owner username t) = .error e →
      Permissions.teamsCheck lookup owner username (t :: rest) =
        ((Permissions.teamsCheck lookup owner username rest).1,
          teamQueryOf owner username t ::
            (Permissions.teamsCheck lookup owner username rest).2)) ∧
    (∀ t1 t2 e resp, lookup (teamQueryOf owner username t1) = .error e →
      lookup (teamQueryOf owner username t2) = .ok resp →
      resp.state = "active" →
      Permissions.teamsCheck lookup owner username [t1, t2] =
        (true, [teamQueryOf owner username t1, teamQueryOf owner username t2])) ∧
    (∀ config : Config,
      (config.allowed.users.isEmpty && config.allowed.teams.isEmpty) = false →
      config.allowed.users.contains username = false →
      (∀ t ∈ config.allowed.teams, isActiveLookup lookup owner username t = false) →
      (Permissions.validatePermission lookup config owner username).1 = false) := by
  refine ⟨rfl, ?_, ?_, ?_, ?_, ?_⟩
  · intro t rest resp hl hs
    rw [Permissions.teamsCheck]
    simp only [hl, if_pos hs]
  · intro t rest resp hl hs
    rw [Permissions.teamsCheck]
    simp only [hl, if_neg hs]
  · intro t rest e hl
    rw [Permissions.teamsCheck]
    simp only [hl]
  · intro t1 t2 e resp h1 h2 hs
    rw [Permissions.teamsCheck]
    simp only [h1]
    rw [Permissions.teamsCheck]
    simp only [h2, if_pos hs]
  · intro config hemp huser hteams
    unfold Permissions.validatePermission
    rw [hemp]
    have hcontains : ¬ config.allowed.users.contains username = true := by
      rw [huser]; exact Bool.false_ne_true
    simp only [Bool.false_eq_true, if_false, hcontains, if_false]
    rw [teamsCheck_all_inactive lookup owner username config.allowed.teams hteams]

/-- C5 (witness): the sample lookup throws for slug "t1" and answers active
for "t2"; the loop over ["t1", "t2"] returns true and its trace shows both
teams were queried, the broken first one included. -/
theorem validatePermission_team_loop_witness :
    Permissions.teamsCheck sampleLookup "o" "u" ["t1", "t2"] =
      (true, [⟨"o", "t1", "u"⟩, ⟨"o", "t2", "u"⟩]) := by
  have h := (validatePermission_team_loop sampleLookup "o" "u").2.2.2.2.1
    "t1" "t2" ⟨none, "API Error"⟩ ⟨200, "active"⟩ (by decide) (by decide) rfl
  rw [h]
  decide

/-- C10: the inline validatePermission of src/index.ts authorizes the
repository owner unconditionally — for every configuration (whatever its
allow-list and teams) and every lookup, an actor whose login equals the
owner gets true with an empty query trace, so no membership lookup is
performed. -/
theorem validatePermission_owner_bypass :
    ∀ (lookup : TeamQuery → Except LookupError MembershipResponse)
      (config : Config) (owner : String),
      Index.validatePermission lookup config owner owner = (true, []) := by
  intro lookup config owner
  unfold Index.validatePermission
  rw [if_pos rfl]

/-! ### Issue operation and orchestrator theorems -/

/-- C1: the create request sent for a parent issue titled "Child Title"
with body "Child Body" (the input the repository's own test suite feeds
createChildIssue) carries the hardcoded title "This is a child issue" and
the fallback body "See parent issue for details" — neither the parent's
title nor its body — and that request is exactly the one external call
createChildIssue makes under every environment. -/
theorem createChildIssue_hardcodes_content :
    createRequestFor
        { title := "Child Title", body := "Child Body", labels := ["bug"] }
        { owner := "child-owner", name := "child-repo" } =
      { owner := "child-owner", repo := "child-repo",
        title := "This is a child issue", body := "See parent issue for details" } ∧
    ("This is a child issue" : String) ≠ "Child Title" ∧
    ("See parent issue for details" : String) ≠ "Child Body" ∧
    ∀ env : IssueEnv,
      (createChildIssue env
          { title := "Child Title", body := "Child Body", labels := ["bug"] }
          { owner := "child-owner", name := "child-repo" }).1 =
        [Event.createCall
          { owner := "child-owner", repo := "child-repo",
            title := "This is a child issue",
            body := "See parent issue for details" }] := by
  refine ⟨rfl, by decide, by decide, ?_⟩
  intro env
  unfold createChildIssue
  cases env.restCreate (createRequestFor
      { title := "Child Title", body := "Child Body", labels := ["bug"] }
      { owner := "child-owner", name := "child-repo" }) with
  | error e => rfl
  | ok resp => rfl

/-- C2: the handleIssueOpened loop visits every resolved target — its trace
is the concatenation of the per-target traces, whatever happens inside each
iteration — and concretely, when the create call throws for the first
target and the create and link calls succeed for the second, the first
target contributes its attempted create plus an error log while the second
target's child issue is still created and linked. -/
theorem handleIssueOpened_failure_isolation
    (env : IssueEnv) (pid : String) (d : IssueDetails) (r1 r2 : Repository)
    (e : String) (resp : CreateResponse)
    (h1 : env.restCreate (createRequestFor d r1) = .error e)
    (h2 : env.restCreate (createRequestFor d r2) = .ok resp)
    (h3 : resp.node_id ≠ "")
    (h4 : pid ≠ "")
    (h5 : env.linkAsSub pid resp.node_id = .ok ()) :
    (∀ repos : List Repository,
      handleIssueOpened env pid d repos =
        repos.flatMap (processChildRepo env pid d)) ∧
    handleIssueOpened env pid d [r1, r2] =
      [.createCall (createRequestFor d r1),
       .errorLog (createFailMsg r1.name e),
       .createCall (createRequestFor d r2),
       .linkCall pid resp.node_id,
       .infoLog ("Created and linked child issue " ++ r2.name ++ "#" ++
         toString resp.number)] := by
  have hall : ∀ repos : List Repository,
      handleIssueOpened env pid d repos =
        repos.flatMap (processChildRepo env pid d) := by
    intro repos
    induction repos with
    | nil => rfl
    | cons r rest ih =>
      rw [handleIssueOpened, ih, List.flatMap_cons]
  refine ⟨hall, ?_⟩
  have hp1 : processChildRepo env pid d r1 =
      [.createCall (createRequestFor d r1), .errorLog (createFailMsg r1.name e)] := by
    unfold processChildRepo createChildIssue
    simp only [h1]
    rfl
  have hp2 : processChildRepo env pid d r2 =
      [.createCall (createRequestFor d r2),
       .linkCall pid resp.node_id,
       .infoLog ("Created and linked child issue " ++ r2.name ++ "#" ++
         toString resp.number)] := by
    unfold processChildRepo createChildIssue
    simp only [h2]
    unfold childNodeIdOf
    simp only [if_neg h3]
    unfold linkIssueAsSubItem
    rw [if_neg h4, if_neg h3]
    simp only [h5]
    rfl
  rw [hall, List.flatMap_cons, List.flatMap_cons, hp1, hp2]
  rfl

/-- C2 (witness): under the environment whose create throws for "r1" and
succeeds for "r2", the two-target run logs the first failure and still
creates and links the second child. -/
theorem handleIssueOpened_failure_isolation_witness :
    handleIssueOpened failFirstEnv "pid" sampleDetails [repoOne, repoTwo] =
      [.createCall
         ⟨"org", "r1", "This is a child issue", "See parent issue for details"⟩,
       .errorLog "Failed to create child issue in r1: boom",
       .createCall
         ⟨"org", "r2", "This is a child issue", "See parent issue for details"⟩,
       .linkCall "pid" "cid2",
       .infoLog "Created and linked child issue r2#7"] :=
  (handleIssueOpened_failure_isolation failFirstEnv "pid" sampleDetails
    repoOne repoTwo "boom" ⟨7, "cid2"⟩ rfl rfl (by decide) (by decide) rfl).2

/-- Each closed child's trace starts with the state-update call that sets
it to closed, whether or not the update succeeds. -/
theorem updateCall_mem_closeOneChild (env : IssueEnv) (kid : IssueReference) :
    Event.updateCall (statusRequestFor kid false) ∈ closeOneChild env kid := by
  unfold closeOneChild updateChildIssueStatus
  cases env.restUpdate (statusRequestFor kid false) with
  | error e => simp
  | ok u => simp

/-- C4: with close-issues-on-parent-close disabled, the closed branch of
run() performs nothing — no linked-children lookup and no state-update
call; with it enabled and the children lookup succeeding, the branch's
trace is the lookup followed by the per-child close traces, and every
fetched child receives the state-update call that sets it to closed. -/
theorem runClosedAction_close_propagation :
    (∀ (env : IssueEnv) (pid : String), runClosedAction env false pid = ([], none)) ∧
    (∀ (env : IssueEnv) (pid : String) (kids : List IssueReference),
      (getChildIssues env pid).2 = .ok kids →
      runClosedAction env true pid =
        (Event.childLookup pid :: kids.flatMap (closeOneChild env), none) ∧
      ∀ kid ∈ kids,
        Event.updateCall (statusRequestFor kid false) ∈
          (runClosedAction env true pid).1) := by
  refine ⟨fun env pid => rfl, ?_⟩
  intro env pid kids hok
  have hpid : ¬ pid = "" := by
    intro h
    subst h
    rw [getChildIssues] at hok
    simp at hok
  have h1 : (getChildIssues env pid).1 = [Event.childLookup pid] := by
    rw [getChildIssues, if_neg hpid]
  have hg : getChildIssues env pid = ([Event.childLookup pid], Except.ok kids) := by
    rw [← h1, ← hok]
  have hrun : runClosedAction env true pid =
      (Event.childLookup pid :: kids.flatMap (closeOneChild env), none) := by
    unfold runClosedAction handleIssueStatusChanged
    rw [if_pos rfl]
    simp only [hg]
    rfl
  refine ⟨hrun, ?_⟩
  intro kid hkid
  rw [hrun]
  exact List.mem_cons_of_mem _
    (List.mem_flatMap.mpr ⟨kid, hkid, updateCall_mem_closeOneChild env kid⟩)

/-- C4 (witness): over the legacy-shaped response carrying two children,
the disabled branch is a no-op and the enabled branch closes both
children. -/
theorem runClosedAction_close_propagation_witness :
    runClosedAction legacyShapedEnv false "p" = ([], none) ∧
    runClosedAction legacyShapedEnv true "p" =
      (Event.childLookup "p" :: legacyKids.flatMap (closeOneChild legacyShapedEnv),
        none) ∧
    Event.updateCall (statusRequestFor
        { owner := "o1", repo := "c1", number := 10, nodeId := some "n1" } false) ∈
      (runClosedAction legacyShapedEnv true "p").1 :=
  ⟨runClosedAction_close_propagation.1 legacyShapedEnv "p",
   (runClosedAction_close_propagation.2 legacyShapedEnv "p" legacyKids rfl).1,
   (runClosedAction_close_propagation.2 legacyShapedEnv "p" legacyKids rfl).2
     { owner := "o1", repo := "c1", number := 10, nodeId := some "n1" } (by decide)⟩

/-- C9: on any response of the shape getChildIssues' own SubIssues query
produces — an object whose children sit under the top-level node field,
with no top-level repository field — the read path
response.repository.issue.trackedInIssues.nodes hits undefined at its
second step, so getChildIssues throws the TypeError instead of returning
the children, and the edited and closed handlers that depend on it abort
after the lookup without reaching their per-child update loop. -/
theorem getChildIssues_wrong_field_path
    (env : IssueEnv) (pid : String) (resp : Json) (d : IssueDetails)
    (hpid : pid ≠ "")
    (hresp : env.graphqlSubIssues pid = .ok resp)
    (hobj : resp.isObj = true)
    (hnode : resp.hasKey "node" = true)
    (hkey : resp.hasKey "repository" = false) :
    (getChildIssues env pid).2 = .error (undefinedReadMsg "issue") ∧
    (∀ kids : List IssueReference, (getChildIssues env pid).2 ≠ .ok kids) ∧
    handleIssueEdited env pid d =
      ([Event.childLookup pid], some (undefinedReadMsg "issue")) ∧
    handleIssueStatusChanged env pid =
      ([Event.childLookup pid], some (undefinedReadMsg "issue")) := by
  cases resp with
  | null => simp [Json.isObj] at hobj
  | str s => simp [Json.isObj] at hobj
  | num n => simp [Json.isObj] at hobj
  | arr elems => simp [Json.isObj] at hobj
  | obj fields =>
    have hf : lookupField fields "repository" = none := by
      cases hl : lookupField fields "repository" with
      | none => rfl
      | some v =>
        rw [Json.hasKey, hl] at hkey
        simp at hkey
    have hparse : getChildIssuesParse (.obj fields) =
        .error (undefinedReadMsg "issue") := by
      unfold getChildIssuesParse
      simp [jsChain, jsAccess, hf]
    have h2 : (getChildIssues env pid).2 = .error (undefinedReadMsg "issue") := by
      rw [getChildIssues, if_neg hpid]
      simp only [hresp]
      exact hparse
    have h1 : (getChildIssues env pid).1 = [Event.childLookup pid] := by
      rw [getChildIssues, if_neg hpid]
    have hg : getChildIssues env pid =
        ([Event.childLookup pid], .error (undefinedReadMsg "issue")) := by
      rw [← h1, ← h2]
    refine ⟨h2, ?_, ?_, ?_⟩
    · intro kids hkids
      rw [h2] at hkids
      cases hkids
    · unfold handleIssueEdited
      simp only [hg]
    · unfold handleIssueStatusChanged
      simp only [hg]

/-- C9 (witness): over the concrete query-shaped response (empty node list
under node.subIssues.nodes, no repository field), getChildIssues throws the
TypeError and the closed handler stops after the lookup. -/
theorem getChildIssues_wrong_field_path_witness :
    (getChildIssues queryShapedEnv "p").2 = .error (undefinedReadMsg "issue") ∧
    handleIssueStatusChanged queryShapedEnv "p" =
      ([Event.childLookup "p"], some (undefinedReadMsg "issue")) := by
  have h := getChildIssues_wrong_field_path queryShapedEnv "p" queryShapedResp
    sampleDetails (by decide) rfl rfl rfl rfl
  exact ⟨h.1, h.2.2.2⟩
